import Mathlib

/-!
Verification of the SignalForge options-pricing estimator
(`SignalForge/tools/get_options_data.py`) and candidate screener
(`SignalForge/tools/analyze_options_data.py`).

The estimator (`_phi`, `_bs_d1`, `_delta_call`, `_delta_put`,
`_pop_itm_call`, `_pop_itm_put`) is embedded over the reals; Python's
`np.nan` sentinel and `None` results are modelled with `Option ℝ`
(`none` = NaN / `None`), matching how the source guards every return.

The screener (`analyze_options_data`) performs only rational arithmetic,
comparisons, `max`, and decimal rounding, so it is embedded computably
over `ℚ`; Python's `round` (banker's rounding, half-to-even) is modelled
by `pyRound`.  A payload that fails pydantic validation inside the
source's `try` block is modelled as the `Except.error` case of the
parsed input.
-/

namespace SignalForge

/-! ### Estimator: normal CDF and Greeks-lite (get_options_data.py) -/

/-- The error function `erf x = (2/√π) · ∫ t in 0..x, exp (-t²)`,
as used by Python's `math.erf`. -/
noncomputable def erf (x : ℝ) : ℝ :=
  (2 / Real.sqrt Real.pi) * ∫ t in (0:ℝ)..x, Real.exp (-t ^ 2)

/-- `_phi(x) = 0.5 * (1.0 + erf(x / sqrt(2.0)))` — standard normal CDF. -/
noncomputable def _phi (x : ℝ) : ℝ :=
  0.5 * (1.0 + erf (x / Real.sqrt 2.0))

/-- `_bs_d1(S, K, sigma, T)`: `denom = sigma * sqrt(T)`; returns NaN
(`none`) when `denom <= 0`, otherwise
`(log(S/K) + 0.5*sigma*sigma*T) / (denom + 1e-12)`. -/
noncomputable def _bs_d1 (S K sigma T : ℝ) : Option ℝ :=
  let denom := sigma * Real.sqrt T
  if denom ≤ 0 then none
  else some ((Real.log (S / K) + 0.5 * sigma * sigma * T) / (denom + 1e-12))

/-- `_delta_call`: `None` when `sigma is None or sigma <= 0 or T <= 0`
or when `d1` is NaN; otherwise `Φ(d1)`. -/
noncomputable def _delta_call (S K : ℝ) (sigma : Option ℝ) (T : ℝ) : Option ℝ :=
  match sigma with
  | none => none
  | some s =>
    if s ≤ 0 ∨ T ≤ 0 then none
    else (_bs_d1 S K s T).map (fun d1 => _phi d1)

/-- `_delta_put`: `None` on the same guards; otherwise `Φ(d1) - 1`. -/
noncomputable def _delta_put (S K : ℝ) (sigma : Option ℝ) (T : ℝ) : Option ℝ :=
  match sigma with
  | none => none
  | some s =>
    if s ≤ 0 ∨ T ≤ 0 then none
    else (_bs_d1 S K s T).map (fun d1 => _phi d1 - 1)

/-- `_pop_itm_call`: `None` on the same guards; otherwise `Φ(d2)` with
`d2 = d1 - sigma*sqrt(T)` (NaN propagates from `d1`). -/
noncomputable def _pop_itm_call (S K : ℝ) (sigma : Option ℝ) (T : ℝ) : Option ℝ :=
  match sigma with
  | none => none
  | some s =>
    if s ≤ 0 ∨ T ≤ 0 then none
    else (_bs_d1 S K s T).map (fun d1 => _phi (d1 - s * Real.sqrt T))

/-- `_pop_itm_put`: `None` on the same guards; otherwise `Φ(-d2)` with
the same `d2 = d1 - sigma*sqrt(T)`. -/
noncomputable def _pop_itm_put (S K : ℝ) (sigma : Option ℝ) (T : ℝ) : Option ℝ :=
  match sigma with
  | none => none
  | some s =>
    if s ≤ 0 ∨ T ≤ 0 then none
    else (_bs_d1 S K s T).map (fun d1 => _phi (-(d1 - s * Real.sqrt T)))

/-! ### Screener data model (schemas.py) -/

/-- `OptionContract` from `schemas.py` (numeric floats as `ℚ`). -/
structure OptionContract where
  expiry : String
  type : String
  strike : ℚ
  last : Option ℚ
  volume : Option ℤ
  openInterest : Option ℤ
  iv : Option ℚ
  delta : Option ℚ
  pop_itm : Option ℚ
deriving DecidableEq

/-- `OptionsDataOut` from `schemas.py`. -/
structure OptionsDataOut where
  ticker : String
  underlying_price : Option ℚ := none
  options : List OptionContract := []
  error : Option String := none
deriving DecidableEq

/-- `OptionCandidate` from `schemas.py`. -/
structure OptionCandidate where
  type : String
  strike : ℚ
  pop_itm : Option ℚ
  credit : ℚ
  max_loss : ℚ
  credit_to_max_loss : ℚ
  meets_rules : Bool
  volume : Option ℤ
  openInterest : Option ℤ
  expiry : String
deriving DecidableEq

/-- `OptionsScreenOut` from `schemas.py`. -/
structure OptionsScreenOut where
  ticker : String
  candidates : List OptionCandidate := []
  error : Option String := none
deriving DecidableEq

/-! ### Screener (analyze_options_data.py) -/

/-- Python's `round(x, n)`: round to `n` decimal places, ties to even. -/
def pyRound (n : ℕ) (x : ℚ) : ℚ :=
  let y := x * 10 ^ n
  let f : ℤ := ⌊y⌋
  let r := y - (f : ℚ)
  let k : ℤ :=
    if r > 1/2 then f + 1
    else if r < 1/2 then f
    else if f % 2 = 0 then f else f + 1
  (k : ℚ) / 10 ^ n

/-- Max-loss proxy (lines 18–22): for a call,
`distance = max(strike - under, 0.5)`, `max_loss = max(distance, 0.5) * 100`;
for a put, `max_loss = strike * 100`. -/
def rawMaxLoss (under : ℚ) (oc : OptionContract) : ℚ :=
  if oc.type = "call" then
    let distance := max (oc.strike - under) 0.5
    max distance 0.5 * 100
  else
    oc.strike * 100

/-- `credit = last * 100`, with `last = oc.last or 0.0` (lines 13, 24). -/
def rawCredit (oc : OptionContract) : ℚ :=
  oc.last.getD 0 * 100

/-- `ratio = (credit / max_loss) if max_loss > 0 else 0` (line 25). -/
def rawRatio (under : ℚ) (oc : OptionContract) : ℚ :=
  if rawMaxLoss under oc > 0 then rawCredit oc / rawMaxLoss under oc else 0

/-- Per-contract body of the screener loop (lines 12–33): skip the
contract when `pop_itm` is `None`, otherwise build the candidate with
`meets_rules` evaluated on the unrounded values and `credit` /
`max_loss` / `credit_to_max_loss` rounded to 2, 2, 3 decimals. -/
def mkCandidate (under : ℚ) (oc : OptionContract) : Option OptionCandidate :=
  match oc.pop_itm with
  | none => none
  | some pop =>
    let max_loss := rawMaxLoss under oc
    let credit := rawCredit oc
    let ratio := rawRatio under oc
    let meets := decide (pop ≥ 0.65 ∧ ratio ≥ 0.33 ∧ max_loss ≤ 500)
    some { type := oc.type, strike := oc.strike, pop_itm := some pop,
           credit := pyRound 2 credit, max_loss := pyRound 2 max_loss,
           credit_to_max_loss := pyRound 3 ratio, meets_rules := meets,
           volume := oc.volume, openInterest := oc.openInterest,
           expiry := oc.expiry }

/-- Sort key of line 35: `(meets_rules, pop_itm or 0, volume or 0)`. -/
def candKey (c : OptionCandidate) : ℕ × ℚ × ℤ :=
  ((if c.meets_rules then 1 else 0), c.pop_itm.getD 0, c.volume.getD 0)

/-- Lexicographic order on sort keys (Python tuple comparison). -/
def keyLe (x y : ℕ × ℚ × ℤ) : Prop :=
  x.1 < y.1 ∨ (x.1 = y.1 ∧
    (x.2.1 < y.2.1 ∨ (x.2.1 = y.2.1 ∧ x.2.2 ≤ y.2.2)))

instance : DecidableRel keyLe := fun x y => by
  unfold keyLe; infer_instance

/-- `a` sorts no later than `b` under `sort(key=candKey, reverse=True)`:
`a`'s key is at least `b`'s. -/
def candRevLe (a b : OptionCandidate) : Bool :=
  decide (keyLe (candKey b) (candKey a))

/-- `analyze_options_data`: the parsed-payload argument models the
source's `OptionsDataOut(**options_payload)` inside `try` — a payload
that raises during validation is the `Except.error` case and is turned
into the error result of the `except` handler (lines 38–39); a missing
underlying price gives the "No underlying price" error result (line 9);
otherwise candidates are built per contract, sorted descending by
`(meets_rules, pop_itm or 0, volume or 0)` (a stable sort, as Python's),
and truncated to the first 10. -/
def analyze_options_data (ticker : String)
    (payload : Except String OptionsDataOut) : OptionsScreenOut :=
  match payload with
  | .error e => { ticker := ticker, candidates := [], error := some e }
  | .ok od =>
    match od.underlying_price with
    | none =>
      { ticker := ticker, candidates := [],
        error := some "No underlying price" }
    | some under =>
      let cands := od.options.filterMap (mkCandidate under)
      { ticker := ticker,
        candidates := (cands.mergeSort candRevLe).take 10,
        error := none }

/-! ### Concrete example data used by witnesses -/

/-- Call at strike 95 with `last=6.0`, `pop_itm=0.70` (spec §8 example). -/
def exCall : OptionContract :=
  ⟨"2025-01-17", "call", 95, some 6, some 120, some 300, some (1/5), none, some (7/10)⟩

/-- Candidate the screener produces from `exCall` with underlying 100. -/
def exCand : OptionCandidate :=
  ⟨"call", 95, some (7/10), 600, 50, 12, true, some 120, some 300, "2025-01-17"⟩

/-- Call at strike 103 with `last=0.9888`, `pop_itm=0.70`: its unrounded
credit-to-max-loss ratio is `98.88/300 = 0.3296 < 0.33`, which rounds to
`0.33` in the output. -/
def exRound : OptionContract :=
  ⟨"2025-01-17", "call", 103, some (1236/1250), some 80, some 150, some (1/5), none, some (7/10)⟩

/-- Candidate the screener produces from `exRound` with underlying 100:
`credit = 98.88`, `max_loss = 300`, rounded ratio `0.33`, but
`meets_rules = false` (decided on the unrounded `0.3296`). -/
def exRoundCand : OptionCandidate :=
  ⟨"call", 103, some (7/10), 2472/25, 300, 33/100, false, some 80, some 150, "2025-01-17"⟩

/-- A contract with null `pop_itm`. -/
def exNull1 : OptionContract :=
  ⟨"2025-01-17", "call", 110, some (3/2), some 10, some 40, none, none, none⟩

/-- Another contract with null `pop_itm`. -/
def exNull2 : OptionContract :=
  ⟨"2025-01-17", "put", 90, none, some 5, some 20, some (1/4), none, none⟩

/-- A put with a pop estimate. -/
def exPut : OptionContract :=
  ⟨"2025-01-17", "put", 50, some (1/10), some 7, some 30, some (3/10), some (-1/5), some (4/5)⟩

/-- A payload of 5 contracts of which 2 have null `pop_itm`. -/
def odEx : OptionsDataOut :=
  ⟨"TST", some 100, [exCall, exNull1, exRound, exNull2, exPut], none⟩

/-- A payload whose underlying price is missing. -/
def odNoPrice : OptionsDataOut :=
  ⟨"TST", none, [exCall], none⟩

/-! ### Helper lemmas: estimator -/

/-- `erf` is odd (substitution `t ↦ -t` in the defining integral). -/
lemma erf_neg (x : ℝ) : erf (-x) = - erf x := by
  unfold erf
  have h := @intervalIntegral.integral_comp_neg ℝ _ _ 0 x (fun t => Real.exp (-t ^ 2))
  simp only [neg_sq, neg_zero] at h
  have h2 := @intervalIntegral.integral_symm ℝ _ _ (fun t => Real.exp (-t ^ 2))
    MeasureTheory.volume 0 (-x)
  rw [show (∫ t in (0:ℝ)..(-x), Real.exp (-t ^ 2)) = -∫ t in (0:ℝ)..x, Real.exp (-t ^ 2) by
    linarith [h, h2]]
  ring

/-- `Φ(x) + Φ(-x) = 1`. -/
lemma _phi_add_neg (x : ℝ) : _phi x + _phi (-x) = 1 := by
  unfold _phi
  rw [neg_div, erf_neg]
  ring

/-- With `sigma > 0` and `T > 0` the source's `_bs_d1` takes the non-NaN
branch and divides by `sigma*√T + 1e-12`. -/
lemma bs_d1_eq (S K sigma T : ℝ) (hs : 0 < sigma) (hT : 0 < T) :
    _bs_d1 S K sigma T =
      some ((Real.log (S / K) + 0.5 * sigma * sigma * T) / (sigma * Real.sqrt T + 1e-12)) := by
  have hd : 0 < sigma * Real.sqrt T := mul_pos hs (Real.sqrt_pos.mpr hT)
  simp only [_bs_d1]
  rw [if_neg (not_le.mpr hd)]

/-- Both POP-ITM estimates use the same `d2`, and the put is `Φ(-d2)`,
so the two probabilities sum to exactly 1. -/
lemma pop_sum_eq_one (S K sigma T : ℝ) (hs : 0 < sigma) (hT : 0 < T) :
    ∃ pc pp, _pop_itm_call S K (some sigma) T = some pc ∧
      _pop_itm_put S K (some sigma) T = some pp ∧ pc + pp = 1 := by
  have hguard : ¬(sigma ≤ 0 ∨ T ≤ 0) := by push_neg; exact ⟨hs, hT⟩
  have hd1 := bs_d1_eq S K sigma T hs hT
  set d1v := (Real.log (S / K) + 0.5 * sigma * sigma * T) / (sigma * Real.sqrt T + 1e-12)
    with hd1v
  refine ⟨_phi (d1v - sigma * Real.sqrt T), _phi (-(d1v - sigma * Real.sqrt T)), ?_, ?_,
    _phi_add_neg _⟩
  · simp only [_pop_itm_call]
    rw [if_neg hguard, hd1, Option.map_some']
  · simp only [_pop_itm_put]
    rw [if_neg hguard, hd1, Option.map_some']

/-- `delta_call - delta_put = Φ(d1) - (Φ(d1) - 1) = 1` exactly. -/
lemma delta_parity (S K sigma T : ℝ) (hs : 0 < sigma) (hT : 0 < T) :
    ∃ dc dp, _delta_call S K (some sigma) T = some dc ∧
      _delta_put S K (some sigma) T = some dp ∧ dc - dp = 1 := by
  have hguard : ¬(sigma ≤ 0 ∨ T ≤ 0) := by push_neg; exact ⟨hs, hT⟩
  have hd1 := bs_d1_eq S K sigma T hs hT
  set d1v := (Real.log (S / K) + 0.5 * sigma * sigma * T) / (sigma * Real.sqrt T + 1e-12)
    with hd1v
  refine ⟨_phi d1v, _phi d1v - 1, ?_, ?_, by ring⟩
  · simp only [_delta_call]
    rw [if_neg hguard, hd1, Option.map_some']
  · simp only [_delta_put]
    rw [if_neg hguard, hd1, Option.map_some']

/-- On degenerate input (`sigma` null, `sigma ≤ 0`, or `T ≤ 0`) all four
estimators return `None`. -/
lemma degenerate_none (S K : ℝ) (sigma : Option ℝ) (T : ℝ)
    (h : sigma = none ∨ (∃ s, sigma = some s ∧ s ≤ 0) ∨ T ≤ 0) :
    _delta_call S K sigma T = none ∧ _delta_put S K sigma T = none ∧
      _pop_itm_call S K sigma T = none ∧ _pop_itm_put S K sigma T = none := by
  rcases h with h | ⟨s, hs, hle⟩ | hT
  · subst h
    exact ⟨rfl, rfl, rfl, rfl⟩
  · subst hs
    simp only [_delta_call, _delta_put, _pop_itm_call, _pop_itm_put]
    rw [if_pos (Or.inl hle), if_pos (Or.inl hle), if_pos (Or.inl hle), if_pos (Or.inl hle)]
    exact ⟨rfl, rfl, rfl, rfl⟩
  · cases sigma with
    | none => exact ⟨rfl, rfl, rfl, rfl⟩
    | some s =>
      simp only [_delta_call, _delta_put, _pop_itm_call, _pop_itm_put]
      rw [if_pos (Or.inr hT), if_pos (Or.inr hT), if_pos (Or.inr hT), if_pos (Or.inr hT)]
      exact ⟨rfl, rfl, rfl, rfl⟩

/-! ### Helper lemmas: screener -/

lemma keyLe_trans {x y z : ℕ × ℚ × ℤ} (h1 : keyLe x y) (h2 : keyLe y z) : keyLe x z := by
  rcases h1 with h1 | ⟨e1, h1⟩
  · rcases h2 with h2 | ⟨e2, h2⟩
    · exact Or.inl (h1.trans h2)
    · exact Or.inl (e2 ▸ h1)
  · rcases h2 with h2 | ⟨e2, h2⟩
    · exact Or.inl (e1 ▸ h2)
    · refine Or.inr ⟨e1.trans e2, ?_⟩
      rcases h1 with h1 | ⟨f1, h1⟩
      · rcases h2 with h2 | ⟨f2, h2⟩
        · exact Or.inl (h1.trans h2)
        · exact Or.inl (f2 ▸ h1)
      · rcases h2 with h2 | ⟨f2, h2⟩
        · exact Or.inl (f1 ▸ h2)
        · exact Or.inr ⟨f1.trans f2, h1.trans h2⟩

lemma keyLe_total (x y : ℕ × ℚ × ℤ) : keyLe x y ∨ keyLe y x := by
  rcases lt_trichotomy x.1 y.1 with h | h | h
  · exact Or.inl (Or.inl h)
  · rcases lt_trichotomy x.2.1 y.2.1 with g | g | g
    · exact Or.inl (Or.inr ⟨h, Or.inl g⟩)
    · rcases le_total x.2.2 y.2.2 with l | l
      · exact Or.inl (Or.inr ⟨h, Or.inr ⟨g, l⟩⟩)
      · exact Or.inr (Or.inr ⟨h.symm, Or.inr ⟨g.symm, l⟩⟩)
    · exact Or.inr (Or.inr ⟨h.symm, Or.inl g⟩)
  · exact Or.inr (Or.inl h)

lemma candRevLe_trans (a b c : OptionCandidate)
    (h1 : candRevLe a b = true) (h2 : candRevLe b c = true) : candRevLe a c = true := by
  simp only [candRevLe, decide_eq_true_iff] at h1 h2 ⊢
  exact keyLe_trans h2 h1

lemma candRevLe_total (a b : OptionCandidate) : (candRevLe a b || candRevLe b a) = true := by
  simp only [candRevLe, Bool.or_eq_true, decide_eq_true_iff]
  exact keyLe_total (candKey b) (candKey a)

/-- A produced candidate carries the contract's `pop_itm` value. -/
lemma mkCandidate_isSome_pop (under : ℚ) (oc : OptionContract) (c : OptionCandidate)
    (h : mkCandidate under oc = some c) :
    ∃ pop, oc.pop_itm = some pop ∧ c.pop_itm = some pop := by
  cases hp : oc.pop_itm with
  | none => simp [mkCandidate, hp] at h
  | some pop =>
    refine ⟨pop, rfl, ?_⟩
    simp only [mkCandidate, hp, Option.some.injEq] at h
    rw [← h]

/-- Dropping the null-`pop_itm` contracts up front does not change the
candidates the screener builds. -/
lemma filterMap_mkCandidate_filter (under : ℚ) (l : List OptionContract) :
    (l.filter (fun oc => oc.pop_itm.isSome)).filterMap (mkCandidate under)
      = l.filterMap (mkCandidate under) := by
  induction l with
  | nil => rfl
  | cons oc l ih =>
    cases hp : oc.pop_itm with
    | none => simp [List.filter_cons, List.filterMap_cons, hp, mkCandidate, ih]
    | some p => simp [List.filter_cons, List.filterMap_cons, hp, mkCandidate, ih]

/-! ### Claims -/

/-- C1, counterexample to the claim as stated: there is NO valid input
on which `_pop_itm_call + _pop_itm_put` differs from 1 beyond the 1e-9
floating tolerance — the source computes both probabilities from the
same `d2` and the put side is `Φ(-d2)`, so the sum is exactly 1. -/
theorem C1_counterexample :
    ¬ ∃ S K sigma T : ℝ, 0 < S ∧ 0 < K ∧ 0 < sigma ∧ 0 < T ∧
      ∃ pc pp, _pop_itm_call S K (some sigma) T = some pc ∧
        _pop_itm_put S K (some sigma) T = some pp ∧ |pc + pp - 1| > 1e-9 := by
  rintro ⟨S, K, sigma, T, hS, hK, hs, hT, pc, pp, hc, hp, habs⟩
  obtain ⟨pc', pp', hc', hp', hsum⟩ := pop_sum_eq_one S K sigma T hs hT
  rw [hc] at hc'
  rw [hp] at hp'
  obtain rfl := Option.some.inj hc'
  obtain rfl := Option.some.inj hp'
  rw [hsum] at habs
  norm_num at habs

/-- C1 (amended): for every valid input `S, K > 0`, `sigma > 0`,
`T > 0`, both POP-ITM estimates are defined and
`_pop_itm_call + _pop_itm_put = 1` exactly (the code computes the put
probability as `Φ(-d2)` with the same `d2` as the call). -/
theorem C1_pop_itm_sum_one (S K sigma T : ℝ)
    (_hS : 0 < S) (_hK : 0 < K) (hs : 0 < sigma) (hT : 0 < T) :
    ∃ pc pp, _pop_itm_call S K (some sigma) T = some pc ∧
      _pop_itm_put S K (some sigma) T = some pp ∧ pc + pp = 1 :=
  pop_sum_eq_one S K sigma T hs hT

/-- Witness for C1 at `S = K = sigma = T = 1`. -/
theorem C1_pop_itm_sum_one_witness :
    ∃ pc pp, _pop_itm_call 1 1 (some 1) 1 = some pc ∧
      _pop_itm_put 1 1 (some 1) 1 = some pp ∧ pc + pp = 1 :=
  C1_pop_itm_sum_one 1 1 1 1 one_pos one_pos one_pos one_pos

/-- C2, counterexample to the claim as stated: at
`S = K = sigma = T = 1`, `_bs_d1` does NOT equal
`(ln(S/K) + 0.5·sigma²·T) / (sigma·√T)` — the source divides by
`sigma·√T + 1e-12`, so it returns `0.5 / (1 + 1e-12)`, not `0.5`. -/
theorem C2_counterexample :
    _bs_d1 1 1 1 1 ≠ some ((Real.log (1 / 1) + 0.5 * 1 ^ 2 * 1) / (1 * Real.sqrt 1)) := by
  rw [bs_d1_eq 1 1 1 1 one_pos one_pos]
  intro hEq
  have h := Option.some.inj hEq
  rw [Real.sqrt_one] at h
  norm_num [Real.log_one] at h

/-- C2 (amended): for `sigma > 0`, `T > 0`, `_bs_d1 S K sigma T` equals
`(ln(S/K) + 0.5·sigma²·T) / (sigma·√T + 1e-12)` (the code adds a 1e-12
epsilon to the denominator); and whenever `sigma·√T` is non-positive it
returns the not-a-number sentinel (`none`), no numeric error. -/
theorem C2_bs_d1_formula (S K sigma T : ℝ) :
    (0 < sigma → 0 < T → _bs_d1 S K sigma T =
      some ((Real.log (S / K) + 0.5 * sigma * sigma * T) / (sigma * Real.sqrt T + 1e-12))) ∧
    (sigma * Real.sqrt T ≤ 0 → _bs_d1 S K sigma T = none) := by
  constructor
  · intro hs hT
    exact bs_d1_eq S K sigma T hs hT
  · intro h
    simp only [_bs_d1]
    rw [if_pos h]

/-- Witness for C2 at `S = K = sigma = T = 1` (defined branch) and at
`sigma = 0` (NaN branch). -/
theorem C2_bs_d1_formula_witness :
    _bs_d1 1 1 1 1 =
      some ((Real.log (1 / 1) + 0.5 * 1 * 1 * 1) / (1 * Real.sqrt 1 + 1e-12)) ∧
    _bs_d1 1 1 0 1 = none :=
  ⟨(C2_bs_d1_formula 1 1 1 1).1 one_pos one_pos,
   (C2_bs_d1_formula 1 1 0 1).2 (by simp)⟩

/-- C3: every candidate the screener builds from a contract with
non-null `pop_itm` has `max_loss = max(max(strike - U, 0.5), 0.5) * 100`
for a call and `strike * 100` for a put, and `credit = last * 100` with
`last` defaulting to `0.0`, each rounded to 2 decimals (the ratio to 3);
the spec's concrete instance (`U=100`, call at 95, `last=6.0`,
`pop_itm=0.70` giving `max_loss=50`, `credit=600`, ratio `12`,
`meets_rules=true`) is checked in the witness. -/
theorem C3_candidate_formulas (under : ℚ) (oc : OptionContract) (pop : ℚ)
    (c : OptionCandidate)
    (hp : oc.pop_itm = some pop) (hc : mkCandidate under oc = some c) :
    c.max_loss = pyRound 2 (if oc.type = "call"
        then max (max (oc.strike - under) 0.5) 0.5 * 100 else oc.strike * 100) ∧
    c.credit = pyRound 2 (oc.last.getD 0 * 100) ∧
    c.credit_to_max_loss = pyRound 3 (rawRatio under oc) := by
  simp only [mkCandidate, hp, Option.some.injEq] at hc
  subst hc
  refine ⟨?_, rfl, rfl⟩
  simp only [rawMaxLoss]

/-- Witness for C3: the spec's concrete example. -/
theorem C3_candidate_formulas_witness :
    mkCandidate 100 exCall = some exCand ∧
    exCand.max_loss = 50 ∧ exCand.credit = 600 ∧
    exCand.credit_to_max_loss = 12 ∧ exCand.meets_rules = true ∧
    exCand.max_loss = pyRound 2 (if exCall.type = "call"
        then max (max (exCall.strike - 100) 0.5) 0.5 * 100 else exCall.strike * 100) ∧
    exCand.credit = pyRound 2 (exCall.last.getD 0 * 100) := by
  have hmk : mkCandidate 100 exCall = some exCand := by
    norm_num [mkCandidate, rawMaxLoss, rawCredit, rawRatio, pyRound, exCall, exCand]
  obtain ⟨h1, h2, h3⟩ := C3_candidate_formulas 100 exCall (7/10) exCand rfl hmk
  exact ⟨hmk, rfl, rfl, rfl, rfl, h1, h2⟩

/-- C4: a payload whose validation raises, or whose underlying price is
null, yields a result with a non-null error string and an empty
candidate list; `analyze_options_data` is a total function, so no
exception can propagate and no partial output exists. -/
theorem C4_error_result (ticker : String) (payload : Except String OptionsDataOut)
    (h : (∃ e, payload = Except.error e) ∨
      (∃ od, payload = Except.ok od ∧ od.underlying_price = none)) :
    (analyze_options_data ticker payload).error.isSome = true ∧
      (analyze_options_data ticker payload).candidates = [] := by
  rcases h with ⟨e, he⟩ | ⟨od, hod, hu⟩
  · subst he
    exact ⟨rfl, rfl⟩
  · subst hod
    simp [analyze_options_data, hu]

/-- Witness for C4 at the concrete payload with missing underlying. -/
theorem C4_error_result_witness :
    (analyze_options_data "TST" (Except.ok odNoPrice)).error.isSome = true ∧
      (analyze_options_data "TST" (Except.ok odNoPrice)).candidates = [] :=
  C4_error_result "TST" (Except.ok odNoPrice) (Or.inr ⟨odNoPrice, rfl, rfl⟩)

/-- C5: a produced candidate has `meets_rules = true` iff
`pop_itm ≥ 0.65`, the pre-rounding credit-to-max-loss ratio is `≥ 0.33`,
and the pre-rounding `max_loss ≤ 500`; the ratio is `credit/max_loss`
when `max_loss > 0` and `0` when `max_loss = 0`. -/
theorem C5_meets_rules_iff (under : ℚ) (oc : OptionContract) (pop : ℚ)
    (c : OptionCandidate)
    (hp : oc.pop_itm = some pop) (hc : mkCandidate under oc = some c) :
    (c.meets_rules = true ↔
      (pop ≥ 0.65 ∧ rawRatio under oc ≥ 0.33 ∧ rawMaxLoss under oc ≤ 500)) ∧
    (rawMaxLoss under oc > 0 →
      rawRatio under oc = rawCredit oc / rawMaxLoss under oc) ∧
    (rawMaxLoss under oc = 0 → rawRatio under oc = 0) := by
  simp only [mkCandidate, hp, Option.some.injEq] at hc
  subst hc
  refine ⟨by simp, ?_, ?_⟩
  · intro h0
    simp only [rawRatio, if_pos h0]
  · intro h0
    simp only [rawRatio, h0]
    norm_num

/-- Witness for C5 at the concrete call example: the three thresholds
hold on the pre-rounding values, so `meets_rules` is true. -/
theorem C5_meets_rules_iff_witness :
    exCand.meets_rules = true ∧ rawRatio 100 exCall = 12 ∧ rawMaxLoss 100 exCall = 50 := by
  have hmk : mkCandidate 100 exCall = some exCand := by
    norm_num [mkCandidate, rawMaxLoss, rawCredit, rawRatio, pyRound, exCall, exCand]
  obtain ⟨hiff, hdiv, h0⟩ := C5_meets_rules_iff 100 exCall (7/10) exCand rfl hmk
  refine ⟨hiff.mpr ?_, ?_, ?_⟩
  · norm_num [rawRatio, rawMaxLoss, rawCredit, exCall]
  · norm_num [rawRatio, rawMaxLoss, rawCredit, exCall]
  · norm_num [rawMaxLoss, exCall]

/-- C6: on a successful pass the candidate list has length at most 10,
is sorted descending by the lexicographic key
`(meets_rules, pop_itm or 0, volume or 0)`, and is the empty list when
no contract yields a candidate. -/
theorem C6_ranked_output (ticker : String) (od : OptionsDataOut) (under : ℚ)
    (h : od.underlying_price = some under) :
    (analyze_options_data ticker (Except.ok od)).candidates.length ≤ 10 ∧
    List.Pairwise (fun a b => keyLe (candKey b) (candKey a))
      (analyze_options_data ticker (Except.ok od)).candidates ∧
    (od.options.filterMap (mkCandidate under) = [] →
      (analyze_options_data ticker (Except.ok od)).candidates = []) := by
  simp only [analyze_options_data, h]
  refine ⟨List.length_take_le 10 _, ?_, ?_⟩
  · have hs := List.sorted_mergeSort candRevLe_trans candRevLe_total
      (od.options.filterMap (mkCandidate under))
    have ht := List.Pairwise.sublist (List.take_sublist 10 _) hs
    exact ht.imp (fun hab => by
      simpa only [candRevLe, decide_eq_true_iff] using hab)
  · intro hnil
    rw [hnil]
    simp

/-- Witness for C6 at the concrete 5-contract payload. -/
theorem C6_ranked_output_witness :
    (analyze_options_data "TST" (Except.ok odEx)).candidates.length ≤ 10 ∧
    List.Pairwise (fun a b => keyLe (candKey b) (candKey a))
      (analyze_options_data "TST" (Except.ok odEx)).candidates ∧
    (odEx.options.filterMap (mkCandidate 100) = [] →
      (analyze_options_data "TST" (Except.ok odEx)).candidates = []) :=
  C6_ranked_output "TST" odEx 100 rfl

/-- C8: contracts with null `pop_itm` are silently excluded — filtering
them out of the payload first changes nothing in the output, and every
candidate in the output carries a non-null `pop_itm`. -/
theorem C8_null_pop_skipped (ticker : String) (od : OptionsDataOut) (under : ℚ)
    (h : od.underlying_price = some under) :
    (analyze_options_data ticker (Except.ok od)).candidates =
      (analyze_options_data ticker (Except.ok
        { od with options := od.options.filter (fun oc => oc.pop_itm.isSome) })).candidates ∧
    ∀ c ∈ (analyze_options_data ticker (Except.ok od)).candidates,
      c.pop_itm.isSome = true := by
  constructor
  · simp only [analyze_options_data, h]
    rw [filterMap_mkCandidate_filter]
  · intro c hc
    simp only [analyze_options_data, h] at hc
    have hmem : c ∈ (od.options.filterMap (mkCandidate under)).mergeSort candRevLe :=
      List.take_subset 10 _ hc
    rw [List.mem_mergeSort] at hmem
    obtain ⟨oc, _, hoc⟩ := List.mem_filterMap.mp hmem
    obtain ⟨pop, _, hcp⟩ := mkCandidate_isSome_pop under oc c hoc
    rw [hcp]
    rfl

/-- Witness for C8 at the 5-contract payload with 2 null `pop_itm`. -/
theorem C8_null_pop_skipped_witness :
    (analyze_options_data "TST" (Except.ok odEx)).candidates =
      (analyze_options_data "TST" (Except.ok
        { odEx with options := odEx.options.filter (fun oc => oc.pop_itm.isSome) })).candidates ∧
    ∀ c ∈ (analyze_options_data "TST" (Except.ok odEx)).candidates,
      c.pop_itm.isSome = true :=
  C8_null_pop_skipped "TST" odEx 100 rfl

/-- C7: when `sigma` is null, `sigma ≤ 0`, or `T ≤ 0`, each of
`_delta_call`, `_delta_put`, `_pop_itm_call`, `_pop_itm_put` returns
`None` — never an exception and never a NaN value. -/
theorem C7_degenerate_inputs (S K : ℝ) (sigma : Option ℝ) (T : ℝ)
    (h : sigma = none ∨ (∃ s, sigma = some s ∧ s ≤ 0) ∨ T ≤ 0) :
    _delta_call S K sigma T = none ∧ _delta_put S K sigma T = none ∧
      _pop_itm_call S K sigma T = none ∧ _pop_itm_put S K sigma T = none :=
  degenerate_none S K sigma T h

/-- Witness for C7 at `sigma = 0` (and `S = K = T = 1`). -/
theorem C7_degenerate_inputs_witness :
    _delta_call 1 1 (some 0) 1 = none ∧ _delta_put 1 1 (some 0) 1 = none ∧
      _pop_itm_call 1 1 (some 0) 1 = none ∧ _pop_itm_put 1 1 (some 0) 1 = none :=
  C7_degenerate_inputs 1 1 (some 0) 1 (Or.inr (Or.inl ⟨0, rfl, le_refl 0⟩))

/-- C9: put-call delta parity — for every valid input both deltas are
defined and `_delta_call - _delta_put` equals 1 to within 1e-9 (in fact
exactly). -/
theorem C9_delta_parity (S K sigma T : ℝ)
    (_hS : 0 < S) (_hK : 0 < K) (hs : 0 < sigma) (hT : 0 < T) :
    ∃ dc dp, _delta_call S K (some sigma) T = some dc ∧
      _delta_put S K (some sigma) T = some dp ∧ |dc - dp - 1| ≤ 1e-9 := by
  obtain ⟨dc, dp, h1, h2, h3⟩ := delta_parity S K sigma T hs hT
  refine ⟨dc, dp, h1, h2, ?_⟩
  rw [h3]
  norm_num

/-- Witness for C9 at `S = K = sigma = T = 1`. -/
theorem C9_delta_parity_witness :
    ∃ dc dp, _delta_call 1 1 (some 1) 1 = some dc ∧
      _delta_put 1 1 (some 1) 1 = some dp ∧ |dc - dp - 1| ≤ 1e-9 :=
  C9_delta_parity 1 1 1 1 one_pos one_pos one_pos one_pos

/-- C10: `meets_rules` is decided on the unrounded ratio while the
output carries the 3-decimal rounding — at underlying 100, a call at
strike 103 with `last = 0.9888` and `pop_itm = 0.70` has unrounded ratio
`0.3296`, so `meets_rules = false`, yet the rounded output fields
(`credit_to_max_loss = 0.33`, `max_loss = 300`, `pop_itm = 0.70`) pass
all three threshold rules. -/
theorem C10_rounding_changes_rules :
    mkCandidate 100 exRound = some exRoundCand ∧
    exRoundCand.meets_rules = false ∧
    (exRoundCand.pop_itm.getD 0 ≥ 0.65 ∧ exRoundCand.credit_to_max_loss ≥ 0.33 ∧
      exRoundCand.max_loss ≤ 500) := by
  refine ⟨?_, rfl, by norm_num [exRoundCand]⟩
  norm_num [mkCandidate, rawMaxLoss, rawCredit, rawRatio, pyRound, exRound, exRoundCand]

end SignalForge
